import Mathlib

/-!
Shallow embedding of the Sega AI driver peripheral bus controller
(src/mame/drivers/segaai.cpp): the interrupt latch/enable/arbiter logic,
the touchpad matrix scanner, and the I/O port dispatcher.

Machine bytes (`u8` fields) are modelled as `Nat` values kept below 256 by
the operations themselves (each write masks with `% 256` exactly where the
C++ `u8` conversion truncates, and the C++ `~mask` on a `u8` operand is
written as the equivalent 8-bit literal mask).  Signal-line levels are `Nat`
with `CLEAR_LINE = 0`; any non-zero value is an asserted level, matching the
`state != CLEAR_LINE` tests of the source.  The fatal `fatalerror` calls of
`irq_callback` are modelled with `Except`.
-/

namespace Segaai

/-- Fixed interrupt vector of the V9938 video chip (`VECTOR_V9938`). -/
def VECTOR_V9938 : Nat := 0xf8

/-- Fixed interrupt vector of the uPD7759 speech chip (`VECTOR_UPD7759`). -/
def VECTOR_UPD7759 : Nat := 0xfb

/-- Pending/enable mask bit of the V9938 video chip (`IRQ_V9938`). -/
def IRQ_V9938 : Nat := 0x01

/-- Pending/enable mask bit of the uPD7759 speech chip (`IRQ_UPD7759`). -/
def IRQ_UPD7759 : Nat := 0x08

/-- MAME `CLEAR_LINE` constant: a deasserted signal level. -/
def CLEAR_LINE : Nat := 0

/-- Driver state of `segaai_state` that the bus controller mutates.
`cpu_irq_line` is the level last written to CPU input line 0 via
`m_maincpu->set_input_line`, and `sound_writes` records the bytes forwarded
to the SN76489A sound chip write register (port `0x0c`). -/
structure AiState where
  irq_active : Nat
  irq_enabled : Nat
  vector : Nat
  prev_v9938_irq : Nat
  prev_upd7759_irq : Nat
  touchpad_x : Nat
  touchpad_y : Nat
  port_1c : Nat
  port_1d : Nat
  port_1e : Nat
  i8255_portb : Nat
  upd7759_ctrl : Nat
  cpu_irq_line : Bool
  sound_writes : List Nat
deriving Repr, DecidableEq

/-- Initial state established by `segaai_state::machine_start` (the CPU
interrupt input starts deasserted and no sound byte has been written). -/
def machine_start : AiState :=
  { irq_active := 0
    irq_enabled := 0
    vector := 0
    prev_v9938_irq := CLEAR_LINE
    prev_upd7759_irq := CLEAR_LINE
    touchpad_x := 0
    touchpad_y := 0
    port_1c := 0
    port_1d := 0
    port_1e := 0
    i8255_portb := 0x7f
    upd7759_ctrl := 0
    cpu_irq_line := false
    sound_writes := [] }

/-- Embedding of `segaai_state::update_irq_state`: assert CPU input line 0
iff `m_irq_active & m_irq_enabled` is non-zero. -/
def update_irq_state (s : AiState) : AiState :=
  { s with cpu_irq_line := s.irq_active &&& s.irq_enabled != 0 }

/-- Embedding of `segaai_state::vdp_interrupt`: on a non-clear level whose
previously stored level was clear, latch the V9938 pending bit; always store
the new level; recompute the line. -/
def vdp_interrupt (level : Nat) (s : AiState) : AiState :=
  let s1 := if level ≠ CLEAR_LINE ∧ s.prev_v9938_irq = CLEAR_LINE then
    { s with irq_active := s.irq_active ||| IRQ_V9938 }
  else s
  update_irq_state { s1 with prev_v9938_irq := level }

/-- Embedding of `segaai_state::upd7759_drq_w`: the raw DRQ level is first
inverted (`state ? CLEAR_LINE : ASSERT_LINE`), then edge-detected against
the stored previous inverted level; the pending bit `IRQ_UPD7759` is latched
on an inverted-level rising edge; recompute the line. -/
def upd7759_drq_w (level : Nat) (s : AiState) : AiState :=
  let upd_irq : Nat := if level ≠ 0 then CLEAR_LINE else 1
  let s1 := if upd_irq ≠ CLEAR_LINE ∧ s.prev_upd7759_irq = CLEAR_LINE then
    { s with irq_active := s.irq_active ||| IRQ_UPD7759 }
  else s
  update_irq_state { s1 with prev_upd7759_irq := upd_irq }

/-- Embedding of `segaai_state::irq_enable_r` (I/O port `0x16` read). -/
def irq_enable_r (s : AiState) : Nat := s.irq_enabled

/-- Embedding of `segaai_state::irq_enable_w` (I/O port `0x16` write): the
whole enable mask is replaced by the written byte.  Note that the C++ body
is the single assignment `m_irq_enabled = data;` — it does not call
`update_irq_state`. -/
def irq_enable_w (data : Nat) (s : AiState) : AiState :=
  { s with irq_enabled := data % 256 }

/-- Embedding of `segaai_state::irq_select_w` (I/O port `0x17` write):
`pin = (data >> 1) & 7`; bit 0 of `data` selects set or clear of bit `pin`
of the enable mask.  The C++ `m_irq_enabled &= ~(1 << pin)` on the `u8`
field is the 8-bit mask `0xff ^^^ (1 <<< pin)`.  Like `irq_enable_w`, the
body does not call `update_irq_state`. -/
def irq_select_w (data : Nat) (s : AiState) : AiState :=
  if data &&& 1 ≠ 0 then
    { s with irq_enabled := s.irq_enabled ||| (1 <<< ((data >>> 1) &&& 0x07)) }
  else
    { s with irq_enabled := s.irq_enabled &&& (0xff ^^^ (1 <<< ((data >>> 1) &&& 0x07))) }

/-- Outcome of the two `fatalerror` calls in `segaai_state::irq_callback`;
each diagnostic reports the current `m_irq_active` and `m_irq_enabled`
masks.  `unknownIrq` is the "Unknown irq triggered" abort (some pending and
enabled bit exists but none of the two implemented sources), `noIrq` is the
"irq_callback called but no irq active or enabled" abort. -/
inductive Fatal where
  | unknownIrq (active enabled : Nat)
  | noIrq (active enabled : Nat)
deriving Repr, DecidableEq

/-- Embedding of `segaai_state::irq_callback` (the CPU interrupt acknowledge
callback): serve the V9938 first, then the uPD7759; clear the pending bit of
the served source (`m_irq_active &= ~mask` on a `u8` is the 8-bit literal
mask), store the vector, recompute the line and return the vector; in any
other state raise the matching `fatalerror`. -/
def irq_callback (s : AiState) : Except Fatal (Nat × AiState) :=
  if s.irq_active &&& s.irq_enabled &&& IRQ_V9938 ≠ 0 then
    Except.ok (VECTOR_V9938,
      update_irq_state { s with irq_active := s.irq_active &&& 0xfe, vector := VECTOR_V9938 })
  else if s.irq_active &&& s.irq_enabled &&& IRQ_UPD7759 ≠ 0 then
    Except.ok (VECTOR_UPD7759,
      update_irq_state { s with irq_active := s.irq_active &&& 0xf7, vector := VECTOR_UPD7759 })
  else if s.irq_active &&& s.irq_enabled ≠ 0 then
    Except.error (Fatal.unknownIrq s.irq_active s.irq_enabled)
  else
    Except.error (Fatal.noIrq s.irq_active s.irq_enabled)

/-- Fixed 24-entry X calibration table `tp_x` of
`segaai_state::get_touchpad_pressed`. -/
def tp_x : List Nat :=
  [5, 15, 26, 37, 47, 58, 69, 79, 90, 101, 111, 122,
   133, 143, 154, 165, 175, 186, 197, 207, 218, 229, 239, 250]

/-- Fixed 20-entry Y calibration table `tp_y` of
`segaai_state::get_touchpad_pressed`. -/
def tp_y : List Nat :=
  [6, 18, 31, 44, 57, 70, 82, 95, 108, 121,
   134, 146, 159, 172, 185, 198, 210, 223, 236, 249]

/-- Embedding of the bit-search loop of `get_touchpad_pressed`:
`int bit = -1; while (port) { bit++; port >>= 1; }`.  For a non-zero
`port` the result is the index of the highest set bit. -/
def scanTopBit (bit : Int) (port : Nat) : Int :=
  if port = 0 then bit else scanTopBit (bit + 1) (port >>> 1)
termination_by port
decreasing_by
  rename_i h
  rw [Nat.shiftRight_one]
  omega

/-- Row loop of `get_touchpad_pressed` over the touchpad row port values:
returns the `(bit, row)` pair of the first row whose port value is non-zero
and whose bit-search result passes the `bit >= 0 && bit < 24` guard. -/
def tp_scan : List Nat → Nat → Option (Nat × Nat)
  | [], _ => none
  | port :: rest, row =>
    if port ≠ 0 then
      let bit := scanTopBit (-1) port
      if 0 ≤ bit ∧ bit < 24 then some (bit.toNat, row)
      else tp_scan rest (row + 1)
    else tp_scan rest (row + 1)

/-- Embedding of `segaai_state::get_touchpad_pressed`: scan the 20 row
ports in ascending row order; on the first hit store
`m_touchpad_x = tp_x[bit]` and `m_touchpad_y = tp_y[row]` and return true;
return false (state untouched) when no row hits. -/
def get_touchpad_pressed (rows : List Nat) (s : AiState) : Bool × AiState :=
  match tp_scan rows 0 with
  | some (bit, row) =>
    (true, { s with touchpad_x := tp_x.getD bit 0, touchpad_y := tp_y.getD row 0 })
  | none => (false, s)

/-- Embedding of `segaai_state::port1c_w` (I/O port `0x1c` write latch). -/
def port1c_w (data : Nat) (s : AiState) : AiState := { s with port_1c := data % 256 }

/-- Embedding of `segaai_state::port1d_w` (I/O port `0x1d` write latch). -/
def port1d_w (data : Nat) (s : AiState) : AiState := { s with port_1d := data % 256 }

/-- Embedding of `segaai_state::port1e_w` (I/O port `0x1e` write latch). -/
def port1e_w (data : Nat) (s : AiState) : AiState := { s with port_1e := data % 256 }

/-- Embedding of `segaai_state::port1e_r` (I/O port `0x1e` read): bit 0 of
the port `0x1c` latch selects the Y sample, otherwise the X sample; the
function reads `m_touchpad_x` / `m_touchpad_y` without modifying anything. -/
def port1e_r (s : AiState) : Nat :=
  if s.port_1c &&& 0x01 ≠ 0 then s.touchpad_y else s.touchpad_x

/-- Embedding of `segaai_state::upd7759_ctrl_w` (I/O port `0x0b` write):
latch the control byte (the derived `md_w` / `set_rom_bank` calls go to the
external speech chip and carry no driver state). -/
def upd7759_ctrl_w (data : Nat) (s : AiState) : AiState :=
  { s with upd7759_ctrl := data % 256 }

/-- Embedding of `segaai_state::i8255_portb_r` (the 8255 port B input
callback): refresh bit 0 from the PORT5 input, then compose the touchpad
status bits — with scanning enabled (bit 0 of the port `0x1d` latch) run a
touchpad scan, report `not pressed` in bit 1 and set bit 2; with scanning
disabled set bit 1 and leave bit 2 clear; the returned byte masks out bit 5. -/
def i8255_portb_r (port5 : Nat) (rows : List Nat) (s : AiState) : Nat × AiState :=
  let s1 := { s with i8255_portb := (s.i8255_portb &&& 0xf8) ||| (port5 &&& 0x01) }
  if s1.port_1d &&& 0x01 ≠ 0 then
    let scan := get_touchpad_pressed rows s1
    let s2 := scan.2
    let s3 := if scan.1 = false then { s2 with i8255_portb := s2.i8255_portb ||| 0x02 } else s2
    let s4 := { s3 with i8255_portb := s3.i8255_portb ||| 0x04 }
    (s4.i8255_portb &&& 0xdf, s4)
  else
    let s2 := { s1 with i8255_portb := s1.i8255_portb ||| 0x02 }
    (s2.i8255_portb &&& 0xdf, s2)

/-- Embedding of the write half of `segaai_state::io_map`: route a CPU I/O
write by port address.  Windows forwarded to external devices (V9938 at
`0x00`-`0x03`, 8255 at `0x04`-`0x07`, 8251 at `0x08`-`0x09`, uPD7759 data
port at `0x14`-`0x15`, expansion bus at `0x20`-`0x3f`) carry no driver
state of their own here; the SN76489A write register at `0x0c` records the
forwarded byte; unmapped addresses discard the write. -/
def ioWrite (addr data : Nat) (s : AiState) : AiState :=
  if addr ≤ 0x09 then s
  else if addr = 0x0b then upd7759_ctrl_w data s
  else if addr = 0x0c then { s with sound_writes := s.sound_writes ++ [data % 256] }
  else if addr = 0x14 ∨ addr = 0x15 then s
  else if addr = 0x16 then irq_enable_w data s
  else if addr = 0x17 then irq_select_w data s
  else if addr = 0x1c then port1c_w data s
  else if addr = 0x1d then port1d_w data s
  else if addr = 0x1e then port1e_w data s
  else s

/-- Embedding of the read half of `segaai_state::io_map`.  Reads of the
external device windows (`0x00`-`0x09`, `0x20`-`0x3f`) are abstracted by
the oracle `ext` (their internal effects belong to the external chips; the
8255 port B callback, which does feed back into driver state, is modelled
directly by `i8255_portb_r` above).  The locally implemented read handlers
are port `0x16` (`irq_enable_r`) and port `0x1e` (`port1e_r`), neither of
which mutates state.  Modelled from the spec: the behaviour of a read of an
address with no read handler (for example port `0x1f`) is decided by MAME
core code that is not part of these sources; per the specification such a
read returns the idle value `0xff` and has no side effect. -/
def ioRead (ext : Nat → Nat) (addr : Nat) (s : AiState) : Nat × AiState :=
  if addr ≤ 0x09 then (ext addr % 256, s)
  else if addr = 0x16 then (irq_enable_r s, s)
  else if addr = 0x1e then (port1e_r s, s)
  else if 0x20 ≤ addr ∧ addr ≤ 0x3f then (ext addr % 256, s)
  else (0xff, s)

/-- Pure effect of `irq_select_w` on the enable mask alone. -/
def selE (data e : Nat) : Nat :=
  if data &&& 1 ≠ 0 then e ||| (1 <<< ((data >>> 1) &&& 0x07))
  else e &&& (0xff ^^^ (1 <<< ((data >>> 1) &&& 0x07)))

/-- Byte sequence that programs the mask `m` through port `0x17` bit by bit:
the j-th byte encodes pin `j` in bits 1-3 and bit `j` of `m` in bit 0. -/
def selData (m : Nat) : List Nat :=
  (List.range 8).map (fun j => 2 * j + ((m >>> j) &&& 1))

/-- Eight consecutive `irq_select_w` writes encoding the bits of `m`. -/
def selectSeq (m : Nat) (s : AiState) : AiState :=
  (selData m).foldl (fun t d => irq_select_w d t) s

/-- Pure enable-mask effect of a sequence of `irq_select_w` data bytes. -/
def eFold (ds : List Nat) (e : Nat) : Nat :=
  ds.foldl (fun e d => selE d e) e

/-- Fold of a sequence of V9938 signal-edge callbacks. -/
def runVdp (ls : List Nat) (s : AiState) : AiState :=
  ls.foldl (fun t l => vdp_interrupt l t) s

/-- Rising-edge detector over a level sequence, seeded with the stored
previous level: true iff some step goes from level 0 to a non-zero level. -/
def hasRise (prev : Nat) : List Nat → Bool
  | [] => false
  | l :: ls => ((prev == 0) && (l != 0)) || hasRise l ls

/-- Touchpad hit test independent of the driver state: some row port value
passes the scan. -/
def touchpadPressed (rows : List Nat) : Bool :=
  (tp_scan rows 0).isSome

/-- Touchpad matrix with only row 0, column bit 0 touched. -/
def rows_bit0 : List Nat := 1 :: List.replicate 19 0

/-- Touchpad matrix with no touched cell. -/
def rows_zero : List Nat := List.replicate 20 0

/-- Touchpad matrix with row 0 bits 0 and 1 touched simultaneously. -/
def rows_bits01 : List Nat := 3 :: List.replicate 19 0

/-- Index of the lowest set bit of a non-zero value (0 for 0). -/
def scanLowBit (port : Nat) : Nat :=
  if port ≤ 1 then 0
  else if port % 2 = 1 then 0
  else 1 + scanLowBit (port / 2)
termination_by port
decreasing_by
  rename_i h _
  omega

/-- Specification variant of the row loop, written from the spec sentence
"for each row with any bit set, finds the lowest set bit": identical to
`tp_scan` except that it selects the lowest instead of the highest set bit.
It exists only to exhibit the divergence between the spec and the
implementation. -/
def tp_scan_spec : List Nat → Nat → Option (Nat × Nat)
  | [], _ => none
  | port :: rest, row =>
    if port ≠ 0 then some (scanLowBit port, row)
    else tp_scan_spec rest (row + 1)

/-- Specification variant of `get_touchpad_pressed` built on
`tp_scan_spec` (lowest-set-bit selection), for comparison only. -/
def get_touchpad_pressed_spec (rows : List Nat) (s : AiState) : Bool × AiState :=
  match tp_scan_spec rows 0 with
  | some (bit, row) =>
    (true, { s with touchpad_x := tp_x.getD bit 0, touchpad_y := tp_y.getD row 0 })
  | none => (false, s)

/-! Bitwise helper lemmas shared by the claim proofs. -/

theorem land_right_comm (a b c : Nat) : a &&& b &&& c = a &&& c &&& b := by
  rw [Nat.and_assoc, Nat.and_comm b c, ← Nat.and_assoc]

theorem lor_mask_ne_zero (x m : Nat) (hm : m ≠ 0) : x ||| m ≠ 0 := by
  intro h
  apply hm
  apply Nat.eq_of_testBit_eq
  intro i
  have h2 := congrArg (fun t => Nat.testBit t i) h
  simp [Nat.testBit_or] at h2
  simp [h2.2]

theorem land_land_lit (a e m k r : Nat) (h : m &&& k = r) :
    a &&& m &&& e &&& k = a &&& r &&& e := by
  rw [land_right_comm (a &&& m) e k, Nat.and_assoc a m k, h]

theorem lor_lit_land_lit (a m k r : Nat) (h : m &&& k = r) :
    (a ||| m) &&& k = (a &&& k) ||| r := by
  rw [Nat.and_distrib_right, h]

theorem land_lit_lit (a m k r : Nat) (h : m &&& k = r) : (a &&& m) &&& k = a &&& r := by
  rw [Nat.and_assoc, h]

theorem skip_v9938 (a e : Nat) : a &&& 0xfe &&& e &&& IRQ_V9938 = 0 := by
  rw [IRQ_V9938, land_land_lit a e 0xfe 1 0 (by decide)]
  simp

theorem keep_upd7759 (a e : Nat) : a &&& 0xfe &&& e &&& IRQ_UPD7759 = a &&& e &&& IRQ_UPD7759 := by
  rw [IRQ_UPD7759, land_land_lit a e 0xfe 8 8 (by decide), land_right_comm a 8 e]

/-! Behavioural lemmas for `irq_callback`, one per branch of the source. -/

theorem irq_callback_v9938 (s : AiState)
    (h1 : s.irq_active &&& s.irq_enabled &&& IRQ_V9938 ≠ 0) :
    irq_callback s = Except.ok (VECTOR_V9938,
      update_irq_state { s with irq_active := s.irq_active &&& 0xfe, vector := VECTOR_V9938 }) := by
  unfold irq_callback
  rw [if_pos h1]

theorem irq_callback_upd7759 (s : AiState)
    (h1 : s.irq_active &&& s.irq_enabled &&& IRQ_V9938 = 0)
    (h8 : s.irq_active &&& s.irq_enabled &&& IRQ_UPD7759 ≠ 0) :
    irq_callback s = Except.ok (VECTOR_UPD7759,
      update_irq_state { s with irq_active := s.irq_active &&& 0xf7, vector := VECTOR_UPD7759 }) := by
  unfold irq_callback
  rw [if_neg (fun hc => hc h1), if_pos h8]

theorem irq_callback_fatal (s : AiState)
    (h1 : s.irq_active &&& s.irq_enabled &&& IRQ_V9938 = 0)
    (h8 : s.irq_active &&& s.irq_enabled &&& IRQ_UPD7759 = 0) :
    irq_callback s = Except.error (if s.irq_active &&& s.irq_enabled ≠ 0
      then Fatal.unknownIrq s.irq_active s.irq_enabled
      else Fatal.noIrq s.irq_active s.irq_enabled) := by
  unfold irq_callback
  rw [if_neg (fun hc => hc h1), if_neg (fun hc => hc h8)]
  split
  case isTrue h => rfl
  case isFalse h => rfl

theorem or_irq_v9938_ne (a : Nat) : (a ||| IRQ_V9938) &&& IRQ_V9938 ≠ 0 := by
  rw [IRQ_V9938, lor_lit_land_lit a 1 1 1 (by decide)]
  exact lor_mask_ne_zero _ _ (by decide)

theorem or_irq_upd7759_ne (a : Nat) : (a ||| IRQ_UPD7759) &&& IRQ_UPD7759 ≠ 0 := by
  rw [IRQ_UPD7759, lor_lit_land_lit a 8 8 8 (by decide)]
  exact lor_mask_ne_zero _ _ (by decide)

/-- C1 counterexample: from the reset state, one V9938 rising edge (pending
bit set while the source is disabled, line recomputed to deasserted)
followed by a write of `0x01` to the enable register (port `0x16`) reaches
a state where `pending & enabled` is non-zero while the CPU interrupt line
is still deasserted: the enable-register write does not re-establish the
invariant, because `irq_enable_w` never calls `update_irq_state`. -/
theorem c1_counterexample :
    (irq_enable_w 1 (vdp_interrupt 1 machine_start)).irq_active &&&
      (irq_enable_w 1 (vdp_interrupt 1 machine_start)).irq_enabled ≠ 0 ∧
    (irq_enable_w 1 (vdp_interrupt 1 machine_start)).cpu_irq_line = false := by
  decide

/-- C1 (amended): the CPU interrupt line equals the predicate
`pending & enabled != 0` after every signal-edge callback and after every
successful acknowledge, while writes to the enable register (port `0x16`)
and to the select register (port `0x17`) mutate the mask but leave the line
at its previous level. -/
theorem c1_line_recompute_amended :
    (∀ level s, (vdp_interrupt level s).cpu_irq_line =
      ((vdp_interrupt level s).irq_active &&& (vdp_interrupt level s).irq_enabled != 0)) ∧
    (∀ level s, (upd7759_drq_w level s).cpu_irq_line =
      ((upd7759_drq_w level s).irq_active &&& (upd7759_drq_w level s).irq_enabled != 0)) ∧
    (∀ s v s2, irq_callback s = Except.ok (v, s2) →
      s2.cpu_irq_line = (s2.irq_active &&& s2.irq_enabled != 0)) ∧
    (∀ data s, (irq_enable_w data s).cpu_irq_line = s.cpu_irq_line) ∧
    (∀ data s, (irq_select_w data s).cpu_irq_line = s.cpu_irq_line) := by
  refine ⟨fun level s => rfl, fun level s => rfl, ?_, fun data s => rfl, ?_⟩
  · intro s v s2 h
    unfold irq_callback at h
    split at h
    · cases h
      rfl
    · split at h
      · cases h
        rfl
      · split at h
        · cases h
        · cases h
  · intro data s
    unfold irq_select_w
    split
    · rfl
    · rfl

/-- C1 witness for the acknowledge conjunct of the amended theorem, at the
concrete state reached after enabling and acknowledging the video source. -/
theorem c1_witness :
    ({ machine_start with irq_active := 0, irq_enabled := 1, vector := 0xf8 } : AiState).cpu_irq_line =
      (({ machine_start with irq_active := 0, irq_enabled := 1, vector := 0xf8 } : AiState).irq_active &&&
        ({ machine_start with irq_active := 0, irq_enabled := 1, vector := 0xf8 } : AiState).irq_enabled != 0) :=
  c1_line_recompute_amended.2.2.1
    { machine_start with irq_active := 1, irq_enabled := 1 } 0xf8 _ (by rfl)

/-- C2: in every state where both the video-chip and the speech-chip
sources are pending and enabled, the acknowledge callback returns the
video-chip vector `0xf8` and clears only the video-chip pending bit (the
new pending mask is the old one under `& 0xfe`), and only a subsequent
acknowledge returns the speech-chip vector `0xfb`. -/
theorem c2_priority_order (s : AiState)
    (h1 : s.irq_active &&& s.irq_enabled &&& IRQ_V9938 ≠ 0)
    (h8 : s.irq_active &&& s.irq_enabled &&& IRQ_UPD7759 ≠ 0) :
    ∃ s2, irq_callback s = Except.ok (VECTOR_V9938, s2) ∧
      s2.irq_active = s.irq_active &&& 0xfe ∧
      s2.irq_enabled = s.irq_enabled ∧
      VECTOR_V9938 = 0xf8 ∧ VECTOR_UPD7759 = 0xfb ∧
      ∃ s3, irq_callback s2 = Except.ok (VECTOR_UPD7759, s3) := by
  refine ⟨_, irq_callback_v9938 s h1, rfl, rfl, rfl, rfl, ?_⟩
  refine ⟨_, irq_callback_upd7759 _ ?_ ?_⟩
  · show s.irq_active &&& 0xfe &&& s.irq_enabled &&& IRQ_V9938 = 0
    exact skip_v9938 _ _
  · show s.irq_active &&& 0xfe &&& s.irq_enabled &&& IRQ_UPD7759 ≠ 0
    rw [keep_upd7759]
    exact h8

/-- C2 witness: both sources pending (`0x09`) and fully enabled. -/
theorem c2_witness :
    ∃ s2, irq_callback { machine_start with irq_active := 9, irq_enabled := 0xff } =
        Except.ok (VECTOR_V9938, s2) ∧
      s2.irq_active = 9 &&& 0xfe ∧
      s2.irq_enabled = 0xff ∧
      VECTOR_V9938 = 0xf8 ∧ VECTOR_UPD7759 = 0xfb ∧
      ∃ s3, irq_callback s2 = Except.ok (VECTOR_UPD7759, s3) :=
  c2_priority_order _ (by decide) (by decide)

/-- C5: whenever `pending & enabled` has no bit in the two implemented
sources (in particular when it is zero), the acknowledge callback aborts
with a fatal diagnostic carrying the current pending and enabled masks, and
returns no vector: the "Unknown irq triggered" diagnostic when some other
bit of `pending & enabled` is set, the "no irq active or enabled"
diagnostic when none is. -/
theorem c5_fatal_diagnostic (s : AiState)
    (h1 : s.irq_active &&& s.irq_enabled &&& IRQ_V9938 = 0)
    (h8 : s.irq_active &&& s.irq_enabled &&& IRQ_UPD7759 = 0) :
    irq_callback s = Except.error (if s.irq_active &&& s.irq_enabled ≠ 0
      then Fatal.unknownIrq s.irq_active s.irq_enabled
      else Fatal.noIrq s.irq_active s.irq_enabled) :=
  irq_callback_fatal s h1 h8

/-- C5 witness: pending and enabled source `0x02`, which is outside the two
implemented sources. -/
theorem c5_witness :
    irq_callback { machine_start with irq_active := 2, irq_enabled := 2 } =
      Except.error (if (2 : Nat) &&& 2 ≠ 0 then Fatal.unknownIrq 2 2 else Fatal.noIrq 2 2) :=
  c5_fatal_diagnostic _ (by decide) (by decide)

/-- C9: the I/O dispatcher forwards a byte written to port `0x0c` unchanged
to the sound chip write register and changes nothing else of the state,
and a read of the unmapped port `0x1f` returns the idle value `0xff` with
the state unchanged. -/
theorem c9_dispatcher :
    (∀ s data, data < 256 →
      ioWrite 0x0c data s = { s with sound_writes := s.sound_writes ++ [data] }) ∧
    (∀ ext s, ioRead ext 0x1f s = (0xff, s)) := by
  constructor
  · intro s data hd
    unfold ioWrite
    norm_num
    omega
  · intro ext s
    unfold ioRead
    norm_num

/-- C9 witness: writing `0x9f` to port `0x0c` from the reset state records
exactly that byte for the sound chip. -/
theorem c9_witness :
    ioWrite 0x0c 0x9f machine_start = { machine_start with sound_writes := [0x9f] } := by
  have h := c9_dispatcher.1 machine_start 0x9f (by decide)
  simpa [machine_start] using h

/-- C10: the speech-chip DRQ handler latches with inverted polarity — a
non-zero raw level is stored as a deasserted controller level and never
changes the pending mask, a zero raw level is stored as asserted and sets
the pending bit `0x08` exactly when the stored previous inverted level was
deasserted; in particular a raw non-zero-to-zero transition always sets the
bit. -/
theorem c10_drq_inverted_polarity :
    (∀ s level, level ≠ 0 →
      (upd7759_drq_w level s).irq_active = s.irq_active ∧
      (upd7759_drq_w level s).prev_upd7759_irq = CLEAR_LINE) ∧
    (∀ s, ((upd7759_drq_w 0 s).irq_active &&& IRQ_UPD7759 ≠ 0 ↔
        (s.irq_active &&& IRQ_UPD7759 ≠ 0 ∨ s.prev_upd7759_irq = CLEAR_LINE)) ∧
      (upd7759_drq_w 0 s).prev_upd7759_irq = 1) ∧
    (∀ s l1, l1 ≠ 0 →
      (upd7759_drq_w 0 (upd7759_drq_w l1 s)).irq_active &&& IRQ_UPD7759 ≠ 0) := by
  refine ⟨?_, ?_, ?_⟩
  · intro s level hl
    constructor
    · simp [upd7759_drq_w, update_irq_state, CLEAR_LINE, hl]
    · simp [upd7759_drq_w, update_irq_state, CLEAR_LINE, hl]
  · intro s
    constructor
    · by_cases hp : s.prev_upd7759_irq = 0
      · simp [upd7759_drq_w, update_irq_state, CLEAR_LINE, hp]
        exact or_irq_upd7759_ne _
      · simp [upd7759_drq_w, update_irq_state, CLEAR_LINE, hp]
    · simp [upd7759_drq_w, update_irq_state, CLEAR_LINE]
  · intro s l1 hl
    simp [upd7759_drq_w, update_irq_state, CLEAR_LINE, hl]
    exact or_irq_upd7759_ne _

/-- C10 witness: a raw falling edge from the reset state latches the
speech-chip pending bit. -/
theorem c10_witness :
    (upd7759_drq_w 1 machine_start).irq_active = machine_start.irq_active ∧
    (upd7759_drq_w 1 machine_start).prev_upd7759_irq = CLEAR_LINE :=
  c10_drq_inverted_polarity.1 machine_start 1 (by decide)

/-! Lemmas for the select-register write path (claim C4). -/

theorem pin_lt_8 (d : Nat) : (d >>> 1) &&& 0x07 < 8 :=
  Nat.lt_of_le_of_lt Nat.and_le_right (by decide)

theorem ff_testBit (i : Nat) (hi : i < 8) : (0xff : Nat).testBit i = true := by
  rw [show (0xff : Nat) = 2 ^ 8 - 1 by decide, Nat.testBit_two_pow_sub_one]
  simp [hi]

theorem selE_testBit_pin (d e : Nat) :
    (selE d e).testBit ((d >>> 1) &&& 0x07) = (d &&& 1 != 0) := by
  unfold selE
  split
  case isTrue h =>
    rw [Nat.testBit_or, Nat.one_shiftLeft, Nat.testBit_two_pow_self]
    rw [Nat.and_one_is_mod] at h
    simp [h]
    omega
  case isFalse h =>
    rw [Nat.testBit_and, Nat.testBit_xor, Nat.one_shiftLeft, Nat.testBit_two_pow_self,
      ff_testBit _ (pin_lt_8 d)]
    rw [Nat.and_one_is_mod] at h
    simp [h]
    omega

theorem selE_testBit_other (d e i : Nat) (hi : i < 8) (hne : i ≠ (d >>> 1) &&& 0x07) :
    (selE d e).testBit i = e.testBit i := by
  unfold selE
  split
  case isTrue h =>
    rw [Nat.testBit_or, Nat.one_shiftLeft, Nat.testBit_two_pow_of_ne (Ne.symm hne)]
    simp
  case isFalse h =>
    rw [Nat.testBit_and, Nat.testBit_xor, Nat.one_shiftLeft,
      Nat.testBit_two_pow_of_ne (Ne.symm hne), ff_testBit _ hi]
    simp

theorem selE_lt (d e : Nat) (he : e < 256) : selE d e < 256 := by
  unfold selE
  split
  case isTrue h =>
    have h1 : (1 <<< ((d >>> 1) &&& 0x07)) < 256 := by
      rw [Nat.one_shiftLeft]
      calc 2 ^ ((d >>> 1) &&& 0x07) ≤ 2 ^ 7 :=
            Nat.pow_le_pow_right (by decide) (by exact Nat.and_le_right)
        _ < 256 := by decide
    exact Nat.lt_of_lt_of_le (Nat.or_lt_two_pow (n := 8) he h1) (by decide)
  case isFalse h =>
    exact Nat.lt_of_le_of_lt Nat.and_le_left he

theorem selData_pin (j m : Nat) (hj : j < 8) :
    ((2 * j + ((m >>> j) &&& 1)) >>> 1) &&& 0x07 = j := by
  have hb : (m >>> j) &&& 1 ≤ 1 := Nat.and_le_right
  have h2 : (2 * j + ((m >>> j) &&& 1)) >>> 1 = j := by
    rw [Nat.shiftRight_one]
    omega
  rw [h2, show (0x07 : Nat) = 2 ^ 3 - 1 by decide, Nat.and_pow_two_sub_one_eq_mod]
  omega

theorem selData_bit0 (j m : Nat) : (2 * j + ((m >>> j) &&& 1)) &&& 1 = (m >>> j) &&& 1 := by
  have hb : (m >>> j) &&& 1 ≤ 1 := Nat.and_le_right
  rw [Nat.and_one_is_mod, Nat.and_one_is_mod]
  omega

theorem eFold_bits (js : List Nat) (m : Nat) :
    ∀ e i, (∀ j ∈ js, j < 8) → i < 8 →
      (eFold (js.map (fun j => 2 * j + ((m >>> j) &&& 1))) e).testBit i =
        if i ∈ js then m.testBit i else e.testBit i := by
  induction js with
  | nil => intro e i hjs hi; simp [eFold]
  | cons j rest ih =>
    intro e i hjs hi
    have hj : j < 8 := hjs j (List.mem_cons_self j rest)
    have hrest : ∀ x ∈ rest, x < 8 := fun x hx => hjs x (List.mem_cons_of_mem j hx)
    rw [List.map_cons]
    have hstep : eFold ((2 * j + ((m >>> j) &&& 1)) :: rest.map (fun j => 2 * j + ((m >>> j) &&& 1))) e
        = eFold (rest.map (fun j => 2 * j + ((m >>> j) &&& 1))) (selE (2 * j + ((m >>> j) &&& 1)) e) := rfl
    rw [hstep, ih _ i hrest hi]
    by_cases hmem : i ∈ rest
    · simp [hmem]
    · by_cases hij : i = j
      · subst hij
        rw [if_neg hmem, if_pos (List.mem_cons_self i rest)]
        have hp := selE_testBit_pin (2 * i + ((m >>> i) &&& 1)) e
        rw [selData_pin i m hj] at hp
        rw [hp, selData_bit0 i m]
        rw [Nat.testBit_to_div_mod, Nat.and_one_is_mod, Nat.shiftRight_eq_div_pow]
        rcases Nat.mod_two_eq_zero_or_one (m / 2 ^ i) with h | h <;> simp [h]
      · rw [if_neg hmem, if_neg ?hnotin]
        case hnotin =>
          intro hc
          rcases List.mem_cons.mp hc with h | h
          · exact hij h
          · exact hmem h
        apply selE_testBit_other _ _ _ hi
        rw [selData_pin j m hj]
        exact hij

theorem eFold_lt (ds : List Nat) : ∀ e, e < 256 → eFold ds e < 256 := by
  induction ds with
  | nil => intro e he; exact he
  | cons d rest ih =>
    intro e he
    exact ih _ (selE_lt d e he)

theorem eFold_selData (e m : Nat) (he : e < 256) (hm : m < 256) :
    eFold (selData m) e = m := by
  apply Nat.eq_of_testBit_eq
  intro i
  by_cases hi : i < 8
  · rw [selData, eFold_bits (List.range 8) m e i (fun j hj => List.mem_range.mp hj) hi]
    simp [List.mem_range, hi]
  · have h8 : (256 : Nat) ≤ 2 ^ i := by
      calc (256 : Nat) = 2 ^ 8 := by decide
        _ ≤ 2 ^ i := Nat.pow_le_pow_right (by decide) (by omega)
    have hlt : eFold (selData m) e < 2 ^ i :=
      Nat.lt_of_lt_of_le (eFold_lt (selData m) e he) h8
    have hltm : m < 2 ^ i := by omega
    rw [Nat.testBit_lt_two_pow hlt, Nat.testBit_lt_two_pow hltm]

theorem sel_proj (d : Nat) (s : AiState) :
    (irq_select_w d s).irq_enabled = selE d s.irq_enabled := by
  unfold irq_select_w selE
  split
  case isTrue h => rfl
  case isFalse h => rfl

theorem fold_proj (ds : List Nat) :
    ∀ s : AiState, ((ds.foldl (fun t d => irq_select_w d t) s).irq_enabled) =
      eFold ds s.irq_enabled := by
  induction ds with
  | nil => intro s; rfl
  | cons d rest ih =>
    intro s
    rw [List.foldl_cons, ih (irq_select_w d s), sel_proj]
    rfl

/-- C4: a write to the select register sets (data bit 0 set) or clears
(data bit 0 clear) bit `(data >> 1) & 7` of the same enable mask that the
enable register replaces wholesale, leaving the other mask bits unchanged;
consequently eight select writes encoding the bits of `m` produce exactly
the mask that a single enable write of `m` produces, and a port `0x16`
read returns that mask. -/
theorem c4_select_enable_commute (s : AiState) (m : Nat) (hm : m < 256)
    (he : s.irq_enabled < 256) :
    (selectSeq m s).irq_enabled = (irq_enable_w m s).irq_enabled ∧
    irq_enable_r (selectSeq m s) = m ∧
    (∀ data, (irq_select_w data s).irq_enabled.testBit ((data >>> 1) &&& 0x07) =
      (data &&& 1 != 0)) ∧
    (∀ data i, i < 8 → i ≠ (data >>> 1) &&& 0x07 →
      (irq_select_w data s).irq_enabled.testBit i = s.irq_enabled.testBit i) := by
  have hsel : (selectSeq m s).irq_enabled = m := by
    rw [selectSeq, fold_proj, eFold_selData _ _ he hm]
  refine ⟨?_, hsel, ?_, ?_⟩
  · rw [hsel]
    show m = m % 256
    omega
  · intro data
    rw [sel_proj, selE_testBit_pin]
  · intro data i hi hne
    rw [sel_proj, selE_testBit_other _ _ _ hi hne]

/-- C4 witness: programming the mask `0xa5` bit by bit through port `0x17`
from the reset state equals one enable write of `0xa5`, and reads back. -/
theorem c4_witness :
    (selectSeq 0xa5 machine_start).irq_enabled = (irq_enable_w 0xa5 machine_start).irq_enabled ∧
    irq_enable_r (selectSeq 0xa5 machine_start) = 0xa5 :=
  ⟨(c4_select_enable_commute machine_start 0xa5 (by decide) (by decide)).1,
   (c4_select_enable_commute machine_start 0xa5 (by decide) (by decide)).2.1⟩

/-! Step lemmas for the edge-to-level latch (claims C3 and C7). -/

theorem vdp_active (l : Nat) (s : AiState) :
    (vdp_interrupt l s).irq_active =
      if l ≠ 0 ∧ s.prev_v9938_irq = 0 then s.irq_active ||| IRQ_V9938 else s.irq_active := by
  unfold vdp_interrupt update_irq_state CLEAR_LINE
  split
  case isTrue h => rfl
  case isFalse h => rfl

theorem vdp_prev (l : Nat) (s : AiState) : (vdp_interrupt l s).prev_v9938_irq = l := by
  unfold vdp_interrupt update_irq_state
  split
  case isTrue h => rfl
  case isFalse h => rfl

theorem vdp_bit_iff (l : Nat) (s : AiState) :
    ((vdp_interrupt l s).irq_active &&& IRQ_V9938 ≠ 0) ↔
      (s.irq_active &&& IRQ_V9938 ≠ 0 ∨ (l ≠ 0 ∧ s.prev_v9938_irq = 0)) := by
  rw [vdp_active]
  by_cases hc : l ≠ 0 ∧ s.prev_v9938_irq = 0
  · rw [if_pos hc]
    exact ⟨fun _ => Or.inr hc, fun _ => or_irq_v9938_ne _⟩
  · rw [if_neg hc]
    simp [hc]

theorem select_preserve (d : Nat) (s : AiState) :
    (irq_select_w d s).irq_active = s.irq_active ∧
    (irq_select_w d s).touchpad_x = s.touchpad_x ∧
    (irq_select_w d s).touchpad_y = s.touchpad_y := by
  unfold irq_select_w
  split
  · exact ⟨rfl, rfl, rfl⟩
  · exact ⟨rfl, rfl, rfl⟩

theorem ioWrite_active (addr data : Nat) (s : AiState) :
    (ioWrite addr data s).irq_active = s.irq_active := by
  unfold ioWrite
  repeat (first | rfl | exact (select_preserve data s).1 | split)

theorem gtp_active (rows : List Nat) (s : AiState) :
    ((get_touchpad_pressed rows s).2).irq_active = s.irq_active := by
  unfold get_touchpad_pressed
  cases htp : tp_scan rows 0 with
  | none => rfl
  | some v =>
    obtain ⟨bit, row⟩ := v
    rfl

theorem gtp_fst (rows : List Nat) (s : AiState) :
    (get_touchpad_pressed rows s).1 = touchpadPressed rows := by
  unfold get_touchpad_pressed touchpadPressed
  cases htp : tp_scan rows 0 with
  | none => rfl
  | some v =>
    obtain ⟨bit, row⟩ := v
    rfl

theorem portb_active (port5 : Nat) (rows : List Nat) (s : AiState) :
    ((i8255_portb_r port5 rows s).2).irq_active = s.irq_active := by
  simp only [i8255_portb_r]
  split
  · split
    · exact gtp_active rows _
    · exact gtp_active rows _
  · rfl

theorem drq_keeps_v9938 (l : Nat) (s : AiState) :
    (upd7759_drq_w l s).irq_active &&& IRQ_V9938 = s.irq_active &&& IRQ_V9938 := by
  simp only [upd7759_drq_w, update_irq_state, CLEAR_LINE]
  split
  · split
    case isTrue h => exact absurd h.1 (by decide)
    case isFalse h => rfl
  · split
    case isTrue h =>
      show (s.irq_active ||| IRQ_UPD7759) &&& IRQ_V9938 = s.irq_active &&& IRQ_V9938
      rw [IRQ_UPD7759, IRQ_V9938, lor_lit_land_lit _ 8 1 0 (by decide), Nat.or_zero]
    case isFalse h => rfl

/-- C3: over every sequence of V9938 signal-edge callbacks the pending bit
ends set iff it was set before or some step was a rising transition of the
level (a held asserted level sets it at most once, a deassertion never
changes the pending mask); no enable write, select write, dispatched I/O
write, port B read or speech-chip edge clears the bit; it is cleared
exactly by an acknowledge that selects the V9938 source (an acknowledge
serving the speech chip clears only that chip's bit). -/
theorem c3_pending_latch :
    (∀ s ls, ((runVdp ls s).irq_active &&& IRQ_V9938 ≠ 0) ↔
      (s.irq_active &&& IRQ_V9938 ≠ 0 ∨ hasRise s.prev_v9938_irq ls = true)) ∧
    (∀ s l1 l2, l1 ≠ 0 → l2 ≠ 0 →
      (vdp_interrupt l2 (vdp_interrupt l1 s)).irq_active = (vdp_interrupt l1 s).irq_active) ∧
    (∀ s, (vdp_interrupt 0 s).irq_active = s.irq_active) ∧
    (∀ s data, (irq_enable_w data s).irq_active = s.irq_active) ∧
    (∀ s data, (irq_select_w data s).irq_active = s.irq_active) ∧
    (∀ s addr data, (ioWrite addr data s).irq_active = s.irq_active) ∧
    (∀ s port5 rows, ((i8255_portb_r port5 rows s).2).irq_active = s.irq_active) ∧
    (∀ s l, (upd7759_drq_w l s).irq_active &&& IRQ_V9938 = s.irq_active &&& IRQ_V9938) ∧
    (∀ s v s2, irq_callback s = Except.ok (v, s2) →
      (v = VECTOR_V9938 ∧ s2.irq_active = s.irq_active &&& 0xfe) ∨
      (v = VECTOR_UPD7759 ∧ s2.irq_active = s.irq_active &&& 0xf7)) := by
  refine ⟨?_, ?_, ?_, fun s data => rfl, fun s data => (select_preserve data s).1,
    fun s addr data => ioWrite_active addr data s,
    fun s port5 rows => portb_active port5 rows s,
    fun s l => drq_keeps_v9938 l s, ?_⟩
  · intro s ls
    induction ls generalizing s with
    | nil => simp [runVdp, hasRise]
    | cons l rest ih =>
      have hstep : runVdp (l :: rest) s = runVdp rest (vdp_interrupt l s) := rfl
      rw [hstep, ih (vdp_interrupt l s), vdp_bit_iff, vdp_prev]
      simp only [hasRise, Bool.or_eq_true, Bool.and_eq_true, beq_iff_eq, bne_iff_ne, ne_eq]
      tauto
  · intro s l1 l2 h1 h2
    rw [vdp_active l2, vdp_prev, if_neg (fun hc => h1 hc.2)]
  · intro s
    rw [vdp_active, if_neg (fun hc => hc.1 rfl)]
  · intro s v s2 h
    unfold irq_callback at h
    split at h
    · cases h
      exact Or.inl ⟨rfl, rfl⟩
    · split at h
      · cases h
        exact Or.inr ⟨rfl, rfl⟩
      · split at h
        · cases h
        · cases h

/-- C3 witness: a held asserted V9938 level latches the pending bit only
once (second callback with a non-zero level changes nothing). -/
theorem c3_witness :
    (vdp_interrupt 2 (vdp_interrupt 1 machine_start)).irq_active =
      (vdp_interrupt 1 machine_start).irq_active :=
  c3_pending_latch.2.1 machine_start 1 2 (by decide) (by decide)

/-! Lemmas for the touchpad scanner (claims C6, C7, C8). -/

theorem scanTopBit_eq : ∀ p, p ≠ 0 → ∀ acc : Int, scanTopBit acc p = acc + 1 + Nat.log2 p := by
  intro p
  induction p using Nat.strong_induction_on with
  | _ p ih =>
    intro hp acc
    rw [scanTopBit, if_neg hp]
    by_cases h1 : p >>> 1 = 0
    · have hp1 : p = 1 := by
        rw [Nat.shiftRight_one] at h1
        omega
      subst hp1
      rw [h1, scanTopBit, if_pos rfl, show Nat.log2 1 = 0 by simp [Nat.log2]]
      simp
    · have hlt : p >>> 1 < p := by
        rw [Nat.shiftRight_one]
        omega
      have hp2 : 2 ≤ p := by
        rw [Nat.shiftRight_one] at h1
        omega
      rw [ih (p >>> 1) hlt h1 (acc + 1)]
      conv_rhs => rw [Nat.log2]
      rw [if_pos hp2, Nat.shiftRight_one]
      push_cast
      ring

theorem tp_scan_zeros : ∀ (rows : List Nat) (r0 : Nat), (∀ r ∈ rows, r = 0) →
    tp_scan rows r0 = none := by
  intro rows
  induction rows with
  | nil => intro r0 h; rfl
  | cons z rest ih =>
    intro r0 h
    have hz : z = 0 := h z (List.mem_cons_self z rest)
    simp only [tp_scan]
    rw [if_neg (fun hc => hc hz)]
    exact ih (r0 + 1) (fun r hr => h r (List.mem_cons_of_mem z hr))

theorem log2_lt_24 (p : Nat) (hp : p ≠ 0) (hlt : p < 2 ^ 24) : Nat.log2 p < 24 :=
  (Nat.log2_lt hp).2 hlt

theorem tp_scan_first (pre : List Nat) : ∀ (p : Nat) (post : List Nat) (r0 : Nat),
    (∀ r ∈ pre, r = 0) → p ≠ 0 → p < 2 ^ 24 →
    tp_scan (pre ++ p :: post) r0 = some (Nat.log2 p, r0 + pre.length) := by
  induction pre with
  | nil =>
    intro p post r0 h hp hlt
    simp only [List.nil_append, tp_scan]
    rw [if_pos hp, scanTopBit_eq p hp (-1), show (-1 : Int) + 1 + (Nat.log2 p : Int) = (Nat.log2 p : Int) by ring]
    rw [if_pos ⟨Int.natCast_nonneg _, by exact_mod_cast log2_lt_24 p hp hlt⟩]
    rw [Int.toNat_natCast]
    simp
  | cons z rest ih =>
    intro p post r0 h hp hlt
    have hz : z = 0 := h z (List.mem_cons_self z rest)
    simp only [List.cons_append, tp_scan]
    rw [if_neg (fun hc => hc hz)]
    rw [List.append_eq, ih p post (r0 + 1) (fun r hr => h r (List.mem_cons_of_mem z hr)) hp hlt]
    have hlen : r0 + 1 + rest.length = r0 + (z :: rest).length := by
      simp
      omega
    rw [hlen]

theorem log2_testBit_self (p : Nat) (hp : p ≠ 0) : p.testBit (Nat.log2 p) = true := by
  have h1 : 2 ^ Nat.log2 p ≤ p := Nat.log2_self_le hp
  have h2 : p < 2 ^ (Nat.log2 p + 1) := Nat.lt_log2_self
  rw [Nat.testBit_to_div_mod]
  have hdiv : p / 2 ^ Nat.log2 p = 1 := by
    apply Nat.div_eq_of_lt_le
    · simpa using h1
    · rw [pow_succ] at h2
      omega
  rw [hdiv]
  rfl

theorem log2_testBit_above (p j : Nat) (hj : Nat.log2 p < j) : p.testBit j = false := by
  by_cases hp : p = 0
  · subst hp
    exact Nat.zero_testBit j
  · apply Nat.testBit_lt_two_pow
    have h2 : p < 2 ^ (Nat.log2 p + 1) := Nat.lt_log2_self
    exact Nat.lt_of_lt_of_le h2 (Nat.pow_le_pow_right (by decide) (by omega))

theorem gtp_rows_bit0 (s : AiState) :
    get_touchpad_pressed rows_bit0 s = (true, { s with touchpad_x := 5, touchpad_y := 6 }) := by
  have h := tp_scan_first [] 1 (List.replicate 19 0) 0 (by simp) (by decide) (by decide)
  rw [show Nat.log2 1 = 0 by simp [Nat.log2]] at h
  unfold get_touchpad_pressed
  rw [show rows_bit0 = [] ++ 1 :: List.replicate 19 0 from rfl, h]
  rfl

/-- C6 (amended): the scanner visits the 20 rows in ascending index order
and, in the first row with any bit set, selects the HIGHEST set bit of that
row (the implementation shifts the row value right until it is zero, which
yields `Nat.log2`), maps it through the fixed X table and the row index
through the fixed Y table, and returns true; with only row 0 bit 0 set it
returns true with sampled X 5 and sampled Y 6, and with all rows zero it
returns false with the state unchanged. -/
theorem c6_touchpad_highest_bit :
    (∀ s rows, (∀ r ∈ rows, r = 0) → get_touchpad_pressed rows s = (false, s)) ∧
    (∀ s pre p post, (∀ r ∈ pre, r = 0) → p ≠ 0 → p < 2 ^ 24 →
      get_touchpad_pressed (pre ++ p :: post) s =
        (true, { s with touchpad_x := tp_x.getD (Nat.log2 p) 0,
                        touchpad_y := tp_y.getD pre.length 0 }) ∧
      p.testBit (Nat.log2 p) = true ∧
      (∀ j, Nat.log2 p < j → p.testBit j = false) ∧
      Nat.log2 p < 24) ∧
    (∀ s, get_touchpad_pressed rows_bit0 s =
      (true, { s with touchpad_x := 5, touchpad_y := 6 })) ∧
    tp_x.length = 24 ∧ tp_y.length = 20 := by
  refine ⟨?_, ?_, gtp_rows_bit0, rfl, rfl⟩
  · intro s rows h
    unfold get_touchpad_pressed
    rw [tp_scan_zeros rows 0 h]
  · intro s pre p post h hp hlt
    refine ⟨?_, log2_testBit_self p hp, fun j hj => log2_testBit_above p j hj,
      log2_lt_24 p hp hlt⟩
    unfold get_touchpad_pressed
    rw [tp_scan_first pre p post 0 h hp hlt,
      show (0 : Nat) + pre.length = pre.length by omega]

/-- C6 witness: an all-zero matrix yields no press and an unchanged state. -/
theorem c6_witness :
    get_touchpad_pressed rows_zero machine_start = (false, machine_start) :=
  c6_touchpad_highest_bit.1 machine_start rows_zero (by decide)

/-- C6 counterexample: with row 0 bits 0 and 1 both set the implementation
samples X from the highest set bit (`tp_x[1] = 15`), while the lowest-set-bit
reading of the claim (the spec variant) samples `tp_x[0] = 5`. -/
theorem c6_counterexample :
    (get_touchpad_pressed rows_bits01 machine_start).2.touchpad_x = 15 ∧
    (get_touchpad_pressed_spec rows_bits01 machine_start).2.touchpad_x = 5 ∧
    (15 : Nat) ≠ 5 := by
  refine ⟨?_, ?_, by decide⟩
  · have h := tp_scan_first [] 3 (List.replicate 19 0) 0 (by simp) (by decide) (by decide)
    rw [show Nat.log2 3 = 1 by simp [Nat.log2]] at h
    unfold get_touchpad_pressed
    rw [show rows_bits01 = [] ++ 3 :: List.replicate 19 0 from rfl, h]
    rfl
  · simp [get_touchpad_pressed_spec, tp_scan_spec, rows_bits01, scanLowBit, tp_x]

theorem gtp_false_snd (rows : List Nat) (t : AiState)
    (h : (get_touchpad_pressed rows t).1 = false) :
    (get_touchpad_pressed rows t).2 = t := by
  unfold get_touchpad_pressed at h ⊢
  cases htp : tp_scan rows 0 with
  | none => rfl
  | some v =>
    obtain ⟨bit, row⟩ := v
    rw [htp] at h
    simp at h

theorem gtp_portb (rows : List Nat) (t : AiState) :
    ((get_touchpad_pressed rows t).2).i8255_portb = t.i8255_portb := by
  unfold get_touchpad_pressed
  cases htp : tp_scan rows 0 with
  | none => rfl
  | some v =>
    obtain ⟨bit, row⟩ := v
    rfl

theorem ioWrite_touch (addr data : Nat) (s : AiState) :
    (ioWrite addr data s).touchpad_x = s.touchpad_x ∧
    (ioWrite addr data s).touchpad_y = s.touchpad_y := by
  unfold ioWrite
  repeat
    (first
      | exact ⟨rfl, rfl⟩
      | exact ⟨(select_preserve data s).2.1, (select_preserve data s).2.2⟩
      | split)

/-- C7: a read of port `0x1e` returns the Y sample when bit 0 of the port
`0x1c` latch is set and the X sample otherwise, without modifying the
state; the sampled coordinates are preserved by every signal-edge callback,
every dispatched I/O write, every acknowledge and every port B read whose
scan fails, and a scan that finds no touched cell leaves the whole state
unchanged. -/
theorem c7_coordinate_read :
    (∀ ext s, ioRead ext 0x1e s =
      ((if s.port_1c &&& 0x01 ≠ 0 then s.touchpad_y else s.touchpad_x), s)) ∧
    (∀ rows s, (get_touchpad_pressed rows s).1 = false →
      (get_touchpad_pressed rows s).2 = s) ∧
    (∀ rows s, (∀ r ∈ rows, r = 0) → (get_touchpad_pressed rows s).2 = s) ∧
    (∀ level s, (vdp_interrupt level s).touchpad_x = s.touchpad_x ∧
      (vdp_interrupt level s).touchpad_y = s.touchpad_y) ∧
    (∀ level s, (upd7759_drq_w level s).touchpad_x = s.touchpad_x ∧
      (upd7759_drq_w level s).touchpad_y = s.touchpad_y) ∧
    (∀ addr data s, (ioWrite addr data s).touchpad_x = s.touchpad_x ∧
      (ioWrite addr data s).touchpad_y = s.touchpad_y) ∧
    (∀ s v s2, irq_callback s = Except.ok (v, s2) →
      s2.touchpad_x = s.touchpad_x ∧ s2.touchpad_y = s.touchpad_y) ∧
    (∀ port5 rows s, (get_touchpad_pressed rows s).1 = false →
      (i8255_portb_r port5 rows s).2.touchpad_x = s.touchpad_x ∧
      (i8255_portb_r port5 rows s).2.touchpad_y = s.touchpad_y) := by
  refine ⟨?_, gtp_false_snd, ?_, ?_, ?_, fun addr data s => ioWrite_touch addr data s, ?_, ?_⟩
  · intro ext s
    unfold ioRead
    rw [if_neg (by decide), if_neg (by decide), if_pos rfl]
    unfold port1e_r
    rfl
  · intro rows s h
    rw [gtp_false_snd rows s ?hf]
    case hf =>
      unfold get_touchpad_pressed
      rw [tp_scan_zeros rows 0 h]
  · intro level s
    unfold vdp_interrupt update_irq_state
    split
    · exact ⟨rfl, rfl⟩
    · exact ⟨rfl, rfl⟩
  · intro level s
    simp only [upd7759_drq_w, update_irq_state]
    split
    · split
      · exact ⟨rfl, rfl⟩
      · exact ⟨rfl, rfl⟩
    · split
      · exact ⟨rfl, rfl⟩
      · exact ⟨rfl, rfl⟩
  · intro s v s2 h
    unfold irq_callback at h
    split at h
    · cases h
      exact ⟨rfl, rfl⟩
    · split at h
      · cases h
        exact ⟨rfl, rfl⟩
      · split at h
        · cases h
        · cases h
  · intro port5 rows s h
    have hp : touchpadPressed rows = false := by
      rw [← gtp_fst rows s]
      exact h
    simp only [i8255_portb_r]
    split
    · split
      case isTrue hsc =>
        constructor
        · rw [gtp_false_snd rows _ hsc]
        · rw [gtp_false_snd rows _ hsc]
      case isFalse hsc =>
        exact absurd (by rw [gtp_fst]; exact hp) hsc
    · exact ⟨rfl, rfl⟩

/-- C7 witness: a failing scan leaves previously sampled coordinates. -/
theorem c7_witness :
    (get_touchpad_pressed rows_zero
      { machine_start with touchpad_x := 99, touchpad_y := 77 }).2 =
      { machine_start with touchpad_x := 99, touchpad_y := 77 } :=
  c7_coordinate_read.2.2.1 rows_zero
    { machine_start with touchpad_x := 99, touchpad_y := 77 } (by decide)

/-! Bit computations for the port B status byte (claim C8). -/

theorem c8_np_bit4 (x p : Nat) :
    (((((x &&& 0xf8) ||| (p &&& 0x01)) ||| 0x02) ||| 0x04) &&& 0xdf) &&& 0x04 = 0x04 := by
  rw [land_lit_lit _ 0xdf 4 4 (by decide), lor_lit_land_lit _ 4 4 4 (by decide),
    lor_lit_land_lit _ 2 4 0 (by decide), Nat.and_distrib_right,
    land_lit_lit x 0xf8 4 0 (by decide), land_lit_lit p 1 4 0 (by decide)]
  simp

theorem c8_np_bit2 (x p : Nat) :
    (((((x &&& 0xf8) ||| (p &&& 0x01)) ||| 0x02) ||| 0x04) &&& 0xdf) &&& 0x02 = 0x02 := by
  rw [land_lit_lit _ 0xdf 2 2 (by decide), lor_lit_land_lit _ 4 2 0 (by decide),
    lor_lit_land_lit _ 2 2 2 (by decide), Nat.and_distrib_right,
    land_lit_lit x 0xf8 2 0 (by decide), land_lit_lit p 1 2 0 (by decide)]
  simp

theorem c8_p_bit4 (x p : Nat) :
    ((((x &&& 0xf8) ||| (p &&& 0x01)) ||| 0x04) &&& 0xdf) &&& 0x04 = 0x04 := by
  rw [land_lit_lit _ 0xdf 4 4 (by decide), lor_lit_land_lit _ 4 4 4 (by decide),
    Nat.and_distrib_right, land_lit_lit x 0xf8 4 0 (by decide),
    land_lit_lit p 1 4 0 (by decide)]
  simp

theorem c8_p_bit2 (x p : Nat) :
    ((((x &&& 0xf8) ||| (p &&& 0x01)) ||| 0x04) &&& 0xdf) &&& 0x02 = 0 := by
  rw [land_lit_lit _ 0xdf 2 2 (by decide), lor_lit_land_lit _ 4 2 0 (by decide),
    Nat.and_distrib_right, land_lit_lit x 0xf8 2 0 (by decide),
    land_lit_lit p 1 2 0 (by decide)]
  simp

theorem c8_d_bit4 (x p : Nat) :
    ((((x &&& 0xf8) ||| (p &&& 0x01)) ||| 0x02) &&& 0xdf) &&& 0x04 = 0 := by
  rw [land_lit_lit _ 0xdf 4 4 (by decide), lor_lit_land_lit _ 2 4 0 (by decide),
    Nat.and_distrib_right, land_lit_lit x 0xf8 4 0 (by decide),
    land_lit_lit p 1 4 0 (by decide)]
  simp

theorem c8_d_bit2 (x p : Nat) :
    ((((x &&& 0xf8) ||| (p &&& 0x01)) ||| 0x02) &&& 0xdf) &&& 0x02 = 0x02 := by
  rw [land_lit_lit _ 0xdf 2 2 (by decide), lor_lit_land_lit _ 2 2 2 (by decide),
    Nat.and_distrib_right, land_lit_lit x 0xf8 2 0 (by decide),
    land_lit_lit p 1 2 0 (by decide)]
  simp

/-- C8: the port B byte read composes the touchpad status bits with
active-low polarity from the scan-enable latch and the scan result — with
scanning enabled (bit 0 of the port `0x1d` latch) bit 2 of the returned
byte is set and bit 1 equals the negation of the hit test; with scanning
disabled bit 2 is clear and bit 1 is forced set. -/
theorem c8_portb_status (port5 : Nat) (rows : List Nat) (s : AiState) :
    (s.port_1d &&& 0x01 ≠ 0 →
      ((i8255_portb_r port5 rows s).1 &&& 0x04 = 0x04 ∧
       ((i8255_portb_r port5 rows s).1 &&& 0x02 = 0x02 ↔ touchpadPressed rows = false))) ∧
    (s.port_1d &&& 0x01 = 0 →
      ((i8255_portb_r port5 rows s).1 &&& 0x04 = 0 ∧
       (i8255_portb_r port5 rows s).1 &&& 0x02 = 0x02)) := by
  constructor
  · intro hd
    simp only [i8255_portb_r]
    rw [if_pos hd]
    constructor
    · split
      case isTrue hsc =>
        rw [gtp_portb]
        exact c8_np_bit4 s.i8255_portb port5
      case isFalse hsc =>
        rw [gtp_portb]
        exact c8_p_bit4 s.i8255_portb port5
    · split
      case isTrue hsc =>
        rw [gtp_fst] at hsc
        rw [gtp_portb, c8_np_bit2 s.i8255_portb port5, hsc]
        simp
      case isFalse hsc =>
        rw [gtp_fst] at hsc
        have hsc2 : touchpadPressed rows = true := by
          cases hb : touchpadPressed rows
          · exact absurd hb hsc
          · rfl
        rw [gtp_portb, c8_p_bit2 s.i8255_portb port5, hsc2]
        simp
  · intro hd
    simp only [i8255_portb_r]
    rw [if_neg (fun hc => hc hd)]
    exact ⟨c8_d_bit4 s.i8255_portb port5, c8_d_bit2 s.i8255_portb port5⟩

/-- C8 witness: with scanning disabled after reset, the data-available bit
is clear and the pressed bit is forced set. -/
theorem c8_witness :
    (i8255_portb_r 1 rows_zero machine_start).1 &&& 0x04 = 0 ∧
    (i8255_portb_r 1 rows_zero machine_start).1 &&& 0x02 = 0x02 :=
  (c8_portb_status 1 rows_zero machine_start).2 (by decide)

end Segaai
